import Mathlib

/-!
# Shallow embedding of the HSSM WFPT likelihood core

This file embeds, over the real numbers, the numeric core of the HSSM
repository:

* `src/hssm/likelihoods/analytical.py` (the pytensor implementation):
  `compute_k`, `ftt01w_fast`, `ftt01w_slow`, `ftt01w`, `logp_ddm`,
  `logp_ddm_sdv`, and the floor constant `LOGP_LB`;
* `src/hssm/wfpt.py` (the aesara implementation): the regime-decision
  closure, `ftt01w_fast`, `ftt01w_slow`, `ftt01w`;
* `src/hssm/wfpt/lan/lan.py` (the LAN foreign bridge): the gradient
  plumbing of `LANLogpOp.grad` and `vjp_vmap_logp`.

Tensors act elementwise; a 1-D tensor is modelled per coordinate by a real
scalar, the two-column trial data matrix by a `List (ℝ × ℝ)` of
(signed rt, response) rows.  Boolean tensors that the source blends
arithmetically (`pt.lt`, `pt.gt`, `pt.less_equal` cast to floatX) are
modelled as `if _ then (1:ℝ) else 0` indicators; `at.switch` is modelled
by `if`.  `pymc.check_parameters`, a deferred validity check attached to a
symbolic result, is modelled by the `Checked` structure carrying the
numeric value together with the list of attached conditions.  Machine
floats are idealised as reals, so "finite" numeric claims are read as
"equals a well-defined real number".
-/

open Real Finset

noncomputable section

namespace HSSM

/-- A result carrying deferred validity conditions, modelling
`pymc.distributions.dist_math.check_parameters`: the numeric value is
computed alongside the checks, and the caller evaluates the checks
afterwards. -/
structure Checked (α : Type) where
  value : α
  conds : List Prop

/-- `check_parameters(x, cond)`: attach one more deferred condition. -/
def check_parameters {α : Type} (x : Checked α) (c : Prop) : Checked α :=
  ⟨x.value, x.conds ++ [c]⟩

/-- A checked result is valid when every attached condition holds; this is
what evaluating the pymc graph checks after the numeric value is formed. -/
def Checked.valid {α : Type} (x : Checked α) : Prop := ∀ c ∈ x.conds, c

/-- The integer index range of the fast expansion,
`arange(-floor((k_terms - 1) / 2), ceil((k_terms - 1) / 2) + 1)`
(identical in `analytical.py` line 77 and `wfpt.py` line 106). -/
def kRange (K : ℕ) : Finset ℤ :=
  Finset.Icc (-⌊((K : ℚ) - 1) / 2⌋) ⌈((K : ℚ) - 1) / 2⌉

/-- `c = max(r, axis=0)`: the maximum exponent over the term index used by
the log-sum-exp stabilisation of the fast expansion (both sources).  For an
empty index range (k_terms = 0) the junk value 0 is returned. -/
def fastMaxExp (tt w : ℝ) (K : ℕ) : ℝ :=
  if h : (kRange K).Nonempty then
    (kRange K).sup' h (fun k => -(w + 2 * (k : ℝ)) ^ 2 / (2 * tt))
  else 0

namespace analytical

/-- `LOGP_LB = pm.floatX(-66.1)` (analytical.py line 19). -/
def LOGP_LB : ℝ := -66.1

/-- `ks` of `compute_k` (analytical.py lines 37-44): the elementwise
conditional blend `_e * _d + (1 - _e) * 2`. -/
def compute_k_ks (rt err : ℝ) : ℝ :=
  let pi_rt_err := π * rt * err
  let a := 2 * Real.sqrt pi_rt_err * err
  let b := 2 + Real.sqrt (-2 * rt * Real.log a)
  let c := Real.sqrt rt + 1
  let d := max b c
  let e : ℝ := if a < 1 then 1 else 0
  e * d + (1 - e) * 2

/-- `kl` of `compute_k` (analytical.py lines 46-50). -/
def compute_k_kl (rt err : ℝ) : ℝ :=
  let pi_rt_err := π * rt * err
  let b := 1 / (π * Real.sqrt rt)
  let c := Real.sqrt (-2 * Real.log pi_rt_err / (π ^ 2 * rt))
  let d := max b c
  let e : ℝ := if pi_rt_err < 1 then 1 else 0
  e * d + (1 - e) * b

/-- `compute_k(rt, err) = pt.lt(ks, kl)` (analytical.py line 52), the
boolean regime indicator as the 0/1 float it is blended with downstream. -/
def compute_k (rt err : ℝ) : ℝ :=
  if compute_k_ks rt err < compute_k_kl rt err then 1 else 0

/-- `ftt01w_fast` (analytical.py lines 55-89): log-sum-exp stabilised fast
expansion `p = exp(c) * sum(y * exp(r - c))` normalised by
`sqrt(2*pi*tt**3)`. -/
def ftt01w_fast (tt w : ℝ) (K : ℕ) : ℝ :=
  Real.exp (fastMaxExp tt w K) *
      (∑ k in kRange K,
        (w + 2 * (k : ℝ)) *
          Real.exp (-(w + 2 * (k : ℝ)) ^ 2 / (2 * tt) - fastMaxExp tt w K)) /
    Real.sqrt (2 * π * tt ^ 3)

/-- `ftt01w_slow` (analytical.py lines 92-117):
`p = sum(k * sin(k*pi*w) * exp(-k^2*pi^2*tt/2)) * pi`. -/
def ftt01w_slow (tt w : ℝ) (K : ℕ) : ℝ :=
  (∑ k in Finset.Icc 1 K,
      (k : ℝ) * Real.sin ((k : ℝ) * π * w) *
        Real.exp (-(k : ℝ) ^ 2 * π ^ 2 * tt / 2)) * π

/-- `ftt01w` (analytical.py lines 120-156): normalise `tt = rt / a**2`,
run the regime selector on the un-normalised `rt`, and blend
`p = lambda_rt * p_fast + (1 - lambda_rt) * p_slow`. -/
def ftt01w (rt a w err : ℝ) (K : ℕ) : ℝ :=
  compute_k rt err * ftt01w_fast (rt / a ^ 2) w K +
    (1 - compute_k rt err) * ftt01w_slow (rt / a ^ 2) w K

/-- `flip = pt.gt(response, 0).astype(floatX)` (analytical.py line 202). -/
def flipId (response : ℝ) : ℝ := if 0 < response then 1 else 0

/-- `v_flipped = flip * (-v) + (1 - flip) * v` (analytical.py line 205). -/
def v_flipped (v response : ℝ) : ℝ :=
  flipId response * (-v) + (1 - flipId response) * v

/-- `z_flipped = flip * (1 - z) + (1 - flip) * z` (analytical.py line 207). -/
def z_flipped (z response : ℝ) : ℝ :=
  flipId response * (1 - z) + (1 - flipId response) * z

/-- `negative_rt = pt.less_equal(rt, epsilon)` as a 0/1 float
(analytical.py line 210). -/
def negative_rt_ind (rt epsilon : ℝ) : ℝ := if rt ≤ epsilon then 1 else 0

/-- `tt = negative_rt * epsilon + (1 - negative_rt) * rt`
(analytical.py line 211): the degenerate-time guard substitutes epsilon. -/
def tt_guard (rt epsilon : ℝ) : ℝ :=
  negative_rt_ind rt epsilon * epsilon + (1 - negative_rt_ind rt epsilon) * rt

/-- One row of `logp_ddm` (analytical.py lines 199-224), with `a` already
the doubled boundary of line 203 applied inside, and the trailing
tuple-comma of line 222 (a shape artifact removed by `.squeeze()`)
dropped. -/
def logp_ddm_row (row : ℝ × ℝ) (v a z t err : ℝ) (K : ℕ) (epsilon : ℝ) : ℝ :=
  negative_rt_ind (|row.1| - t) epsilon * LOGP_LB +
    (1 - negative_rt_ind (|row.1| - t) epsilon) *
      (Real.log
          (max (ftt01w (tt_guard (|row.1| - t) epsilon) (a * 2)
                  (z_flipped z row.2) err K)
            (Real.exp LOGP_LB)) -
        v_flipped v row.2 * (a * 2) * z_flipped z row.2 -
        v_flipped v row.2 ^ 2 * tt_guard (|row.1| - t) epsilon / 2 -
        2 * Real.log (a * 2))

/-- `logp_ddm` (analytical.py lines 159-229): per-row log-likelihoods with
the three deferred `check_parameters` conditions of lines 226-228 (the `a`
checked on line 226 is the rebound doubled boundary of line 203). -/
def logp_ddm (data : List (ℝ × ℝ)) (v a z t err : ℝ) (K : ℕ)
    (epsilon : ℝ) : Checked (List ℝ) :=
  check_parameters
    (check_parameters
      (check_parameters
        ⟨data.map fun row => logp_ddm_row row v a z t err K epsilon, []⟩
        (0 ≤ a * 2))
      (0 ≤ z))
    (z ≤ 1)

/-- One row of the `sv > 0` branch of `logp_ddm_sdv`
(analytical.py lines 277-307). -/
def logp_ddm_sdv_row (row : ℝ × ℝ) (v a z t sv err : ℝ) (K : ℕ)
    (epsilon : ℝ) : ℝ :=
  negative_rt_ind (|row.1| - t) epsilon * LOGP_LB +
    (1 - negative_rt_ind (|row.1| - t) epsilon) *
      (Real.log
          (max (ftt01w (tt_guard (|row.1| - t) epsilon) (a * 2)
                  (z_flipped z row.2) err K)
            (Real.exp LOGP_LB)) +
        ((a * 2 * z_flipped z row.2 * sv) ^ 2 -
            2 * (a * 2) * v_flipped v row.2 * z_flipped z row.2 -
            v_flipped v row.2 ^ 2 * tt_guard (|row.1| - t) epsilon) /
          (2 * sv ^ 2 * tt_guard (|row.1| - t) epsilon + 2) -
        0.5 * Real.log (sv ^ 2 * tt_guard (|row.1| - t) epsilon + 1) -
        2 * Real.log (a * 2))

/-- `logp_ddm_sdv` (analytical.py lines 232-313): delegates to `logp_ddm`
when `sv == 0` (line 274), otherwise computes the variability-corrected
rows and attaches the four deferred checks of lines 309-312. -/
def logp_ddm_sdv (data : List (ℝ × ℝ)) (v a z t sv err : ℝ) (K : ℕ)
    (epsilon : ℝ) : Checked (List ℝ) :=
  if sv = 0 then logp_ddm data v a z t err K epsilon
  else
    check_parameters
      (check_parameters
        (check_parameters
          (check_parameters
            ⟨data.map fun row => logp_ddm_sdv_row row v a z t sv err K epsilon,
              []⟩
            (0 ≤ a * 2))
          (0 ≤ z))
        (z ≤ 1))
      (0 < sv)

end analytical

namespace wfpt

/-- `ks` of the aesara decision closure (wfpt.py lines 67-69):
`ks = switch(2*sqrt(2*pi*rt)*err < 1, max(2 + sqrt(-2*rt*log(...)),
sqrt(rt)+1), 2)`. -/
def ks (rt err : ℝ) : ℝ :=
  let ks0 := 2 + Real.sqrt (-2 * rt * Real.log (2 * Real.sqrt (2 * π * rt) * err))
  let ks1 := max ks0 (Real.sqrt rt + 1)
  if 2 * Real.sqrt (2 * π * rt) * err < 1 then ks1 else 2

/-- `kl` of the aesara decision closure (wfpt.py lines 72-74). -/
def kl (rt err : ℝ) : ℝ :=
  let kl0 := Real.sqrt (-2 * Real.log (π * rt * err) / (π ^ 2 * rt))
  let kl1 := max kl0 (1 / (π * Real.sqrt rt))
  if π * rt * err < 1 then kl1 else 1 / (π * Real.sqrt rt)

/-- `lambda_rt = ks < kl` (wfpt.py line 76), the pure value computed by
`decision_func`'s inner closure (its memoisation returns the same value
for equal inputs, so the cache is semantically transparent). -/
def decision (rt err : ℝ) : Prop := ks rt err < kl rt err

/-- aesara `ftt01w_fast` (wfpt.py lines 91-113):
`p = exp(c + log(sum(y * exp(r - c))))` normalised by `sqrt(2*pi*tt^3)`. -/
def ftt01w_fast (tt w : ℝ) (K : ℕ) : ℝ :=
  Real.exp (fastMaxExp tt w K +
      Real.log (∑ k in kRange K,
        (w + 2 * (k : ℝ)) *
          Real.exp (-(w + 2 * (k : ℝ)) ^ 2 / 2 / tt - fastMaxExp tt w K))) /
    Real.sqrt (2 * π * tt ^ 3)

/-- aesara `ftt01w_slow` (wfpt.py lines 116-134). -/
def ftt01w_slow (tt w : ℝ) (K : ℕ) : ℝ :=
  (∑ k in Finset.Icc 1 K,
      (k : ℝ) * Real.sin ((k : ℝ) * π * w) *
        Real.exp (-(k : ℝ) ^ 2 * π ^ 2 * tt / 2)) * π

/-- aesara `ftt01w` (wfpt.py lines 137-162): `p = switch(lambda_rt,
p_fast, p_slow)` followed by the clamp `p * (p > 0)`. -/
def ftt01w (rt a w err : ℝ) (K : ℕ) : ℝ :=
  let tt := rt / a ^ 2
  let p := if ks rt err < kl rt err then ftt01w_fast tt w K
    else ftt01w_slow tt w K
  p * (if 0 < p then 1 else 0)

end wfpt

namespace lan

/-- A symbolic gradient slot returned by a pytensor `Op.grad`: either the
designated unsupported-gradient signal
(`pytensor.gradient.grad_not_implemented`, lan.py line 164) or an actual
gradient expression. -/
inductive GradOut (α : Type) where
  | notImplemented : GradOut α
  | grad : α → GradOut α

/-- `vjp_vmap_logp` (lan.py lines 88-106): the foreign (jax) VJP
`vjp_fn(gz)` returns one cotangent per input of `vmap_logp`, i.e. for the
data tensor followed by each parameter tensor; the `[1:]` slice drops the
data cotangent.  The opaque foreign VJP is the parameter `vjp_fn`. -/
def vjp_vmap_logp {α : Type} (vjp_fn : α → List α → α → List α)
    (data : α) (dist_params : List α) (gz : α) : List α :=
  (vjp_fn data dist_params gz).drop 1

/-- `LANLogpOp.grad` (lan.py lines 161-167): the forward node's backward
rule returns `grad_not_implemented` for the raw data input (never a silent
zero) followed by the outputs of the VJP node `LANLogpVJPOp` invoked on
the same data and parameters with the upstream gradient `gz` passed
through; that node computes `vjp_vmap_logp` (lan.py line 185). -/
def LANLogpOp_grad {α : Type} (vjp_fn : α → List α → α → List α)
    (data : α) (dist_params : List α) (gz : α) : List (GradOut α) :=
  GradOut.notImplemented ::
    (vjp_vmap_logp vjp_fn data dist_params gz).map GradOut.grad

end lan

namespace analytical

/-- The fast expansion as the spec's words describe it, up to the index
range: the unstabilised sum `sum((w + 2k) * exp(-(w + 2k)^2 / (2*tt)))`
with outer normalisation `1 / sqrt(2*pi*tt^3)`, over the source's index
range.  Second definition for the C7 refinement comparison against
`ftt01w_fast`. -/
def ftt01w_fast_spec (tt w : ℝ) (K : ℕ) : ℝ :=
  (∑ k in kRange K,
      (w + 2 * (k : ℝ)) * Real.exp (-(w + 2 * (k : ℝ)) ^ 2 / (2 * tt))) /
    Real.sqrt (2 * π * tt ^ 3)

/-- The fast expansion with the index range read literally from the claim:
a sum over integers k running from `⌈(k_terms-1)/2⌉` up to
`⌊(k_terms-1)/2⌋`.  Second definition for the C7 comparison. -/
def ftt01w_fast_claimRange (tt w : ℝ) (K : ℕ) : ℝ :=
  (∑ k in Finset.Icc ⌈((K : ℚ) - 1) / 2⌉ ⌊((K : ℚ) - 1) / 2⌋,
      (w + 2 * (k : ℝ)) * Real.exp (-(w + 2 * (k : ℝ)) ^ 2 / (2 * tt))) /
    Real.sqrt (2 * π * tt ^ 3)

end analytical

/-- The choice-flip transformation of claim C4 on one data row: flip the
sign of the signed response-time entry and of the response entry. -/
def flipRow (row : ℝ × ℝ) : ℝ × ℝ := (-row.1, -row.2)

/-! ## Helper lemmas -/

theorem check_value {α : Type} (x : Checked α) (c : Prop) :
    (check_parameters x c).value = x.value := rfl

theorem negative_rt_ind_one {rt epsilon : ℝ} (h : rt ≤ epsilon) :
    analytical.negative_rt_ind rt epsilon = 1 := if_pos h

theorem negative_rt_ind_zero {rt epsilon : ℝ} (h : epsilon < rt) :
    analytical.negative_rt_ind rt epsilon = 0 := if_neg (not_le.mpr h)

theorem tt_guard_nondegenerate {rt epsilon : ℝ} (h : epsilon < rt) :
    analytical.tt_guard rt epsilon = rt := by
  rw [analytical.tt_guard, negative_rt_ind_zero h]; ring

theorem logp_ddm_row_degenerate {row : ℝ × ℝ} {t epsilon : ℝ}
    (v a z err : ℝ) (K : ℕ) (h : |row.1| - t ≤ epsilon) :
    analytical.logp_ddm_row row v a z t err K epsilon = analytical.LOGP_LB := by
  rw [analytical.logp_ddm_row, negative_rt_ind_one h]; ring

theorem logp_ddm_sdv_row_degenerate {row : ℝ × ℝ} {t epsilon : ℝ}
    (v a z sv err : ℝ) (K : ℕ) (h : |row.1| - t ≤ epsilon) :
    analytical.logp_ddm_sdv_row row v a z t sv err K epsilon
      = analytical.LOGP_LB := by
  rw [analytical.logp_ddm_sdv_row, negative_rt_ind_one h]; ring

theorem v_flipped_flip {v c : ℝ} (hc : c ≠ 0) :
    analytical.v_flipped (-v) (-c) = analytical.v_flipped v c := by
  rcases hc.lt_or_lt with h | h
  · rw [analytical.v_flipped, analytical.v_flipped, analytical.flipId,
      analytical.flipId, if_neg (not_lt.mpr h.le), if_pos (neg_pos.mpr h)]
    ring
  · rw [analytical.v_flipped, analytical.v_flipped, analytical.flipId,
      analytical.flipId, if_pos h, if_neg (not_lt.mpr (neg_nonpos.mpr h.le))]
    ring

theorem z_flipped_flip {z c : ℝ} (hc : c ≠ 0) :
    analytical.z_flipped (1 - z) (-c) = analytical.z_flipped z c := by
  rcases hc.lt_or_lt with h | h
  · rw [analytical.z_flipped, analytical.z_flipped, analytical.flipId,
      analytical.flipId, if_neg (not_lt.mpr h.le), if_pos (neg_pos.mpr h)]
    ring
  · rw [analytical.z_flipped, analytical.z_flipped, analytical.flipId,
      analytical.flipId, if_pos h, if_neg (not_lt.mpr (neg_nonpos.mpr h.le))]
    ring

theorem logp_ddm_row_flip {row : ℝ × ℝ} (hc : row.2 ≠ 0) (v a z t err : ℝ)
    (K : ℕ) (epsilon : ℝ) :
    analytical.logp_ddm_row (flipRow row) (-v) a (1 - z) t err K epsilon
      = analytical.logp_ddm_row row v a z t err K epsilon := by
  simp only [analytical.logp_ddm_row, flipRow, abs_neg,
    v_flipped_flip hc, z_flipped_flip hc]

theorem floor_log_bound (x : ℝ) :
    analytical.LOGP_LB ≤ Real.log (max x (Real.exp analytical.LOGP_LB)) :=
  calc analytical.LOGP_LB
      = Real.log (Real.exp analytical.LOGP_LB) := (Real.log_exp _).symm
    _ ≤ Real.log (max x (Real.exp analytical.LOGP_LB)) :=
        Real.log_le_log (Real.exp_pos _) (le_max_right _ _)

/-! ## Numeric bound helpers -/

theorem exp_upper {q : ℝ} (h1 : q < 1) : Real.exp q ≤ 1 / (1 - q) := by
  have h2 : 1 - q ≤ Real.exp (-q) := by
    have := Real.add_one_le_exp (-q); linarith
  have h3 : 0 < Real.exp q := Real.exp_pos q
  have h4 : Real.exp (-q) * Real.exp q = 1 := by
    rw [← Real.exp_add]; simp
  rw [le_div_iff (by linarith)]
  nlinarith

theorem exp_quartic {q : ℝ} (h0 : 0 ≤ q) : (1 + q / 4) ^ 4 ≤ Real.exp q := by
  have h1 : Real.exp q = (Real.exp (q / 4)) ^ 4 := by
    rw [← Real.exp_nat_mul]; ring_nf
  rw [h1]
  have h2 : 1 + q / 4 ≤ Real.exp (q / 4) := by
    have := Real.add_one_le_exp (q / 4); linarith
  exact pow_le_pow_left (by linarith) h2 4

theorem exp_two_lb : (7.389056 : ℝ) ≤ Real.exp 2 := by
  have h : Real.exp 2 = Real.exp 1 * Real.exp 1 := by
    rw [← Real.exp_add]; norm_num
  have := Real.exp_one_gt_d9
  nlinarith [Real.exp_pos 1]

theorem exp_two_ub : Real.exp 2 ≤ 7.3890562 := by
  have h : Real.exp 2 = Real.exp 1 * Real.exp 1 := by
    rw [← Real.exp_add]; norm_num
  have := Real.exp_one_lt_d9
  nlinarith [Real.exp_pos 1]

theorem sqrt_le_of_sq {x c : ℝ} (hc : 0 ≤ c) (h : x ≤ c ^ 2) :
    Real.sqrt x ≤ c := by
  calc Real.sqrt x ≤ Real.sqrt (c ^ 2) := Real.sqrt_le_sqrt h
    _ = c := Real.sqrt_sq hc

theorem le_sqrt_of_sq {x c : ℝ} (hc : 0 ≤ c) (h : c ^ 2 ≤ x) :
    c ≤ Real.sqrt x := by
  calc c = Real.sqrt (c ^ 2) := (Real.sqrt_sq hc).symm
    _ ≤ Real.sqrt x := Real.sqrt_le_sqrt h

theorem neg_log_le {X B : ℝ} (h : Real.exp (-B) ≤ X) : -Real.log X ≤ B := by
  have h2 : Real.log (Real.exp (-B)) ≤ Real.log X :=
    Real.log_le_log (Real.exp_pos _) h
  rw [Real.log_exp] at h2
  linarith

theorem log_le_neg {X B : ℝ} (hX : 0 < X) (h : X ≤ Real.exp (-B)) :
    Real.log X ≤ -B := by
  have h2 : Real.log X ≤ Real.log (Real.exp (-B)) := Real.log_le_log hX h
  rwa [Real.log_exp] at h2

theorem exp_neg_le {B c : ℝ} (hc : 0 < c) (h : 1 ≤ Real.exp B * c) :
    Real.exp (-B) ≤ c := by
  rw [Real.exp_neg]
  rw [inv_le (Real.exp_pos _) hc] at *
  calc c⁻¹ ≤ Real.exp B * c * c⁻¹ := by
        nlinarith [inv_pos.mpr hc]
    _ = Real.exp B := by field_simp

theorem le_exp_neg {B c : ℝ} (hc : 0 < c) (h : Real.exp B * c ≤ 1) :
    c ≤ Real.exp (-B) := by
  rw [Real.exp_neg, le_inv (by positivity) (Real.exp_pos _)]
  calc Real.exp B = Real.exp B * c * c⁻¹ := by field_simp
    _ ≤ 1 * c⁻¹ := by
        have := inv_pos.mpr hc
        nlinarith
    _ = c⁻¹ := one_mul _

/-! ## Concrete regime-selection and series facts used by C5, C6, C9 -/

theorem pi_sq_lb : (9.8696 : ℝ) ≤ π ^ 2 := by
  nlinarith [Real.pi_gt_3141592]

theorem pi_sq_ub : π ^ 2 ≤ 9.8696066 := by
  nlinarith [Real.pi_lt_3141593, Real.pi_pos]

/-- The truncated slow expansion is negative at tt = 1/100, w = 3/4,
k_terms = 2: the k = 2 sine term dominates. -/
theorem ftt01w_slow_neg : analytical.ftt01w_slow (1/100) (3/4) 2 < 0 := by
  rw [analytical.ftt01w_slow,
    show Finset.Icc 1 2 = ({1, 2} : Finset ℕ) from by decide,
    Finset.sum_pair (by decide)]
  push_cast
  have hs1 : Real.sin ((1 : ℝ) * π * (3/4)) = Real.sqrt 2 / 2 := by
    rw [show (1 : ℝ) * π * (3/4) = π - π/4 by ring, Real.sin_pi_sub,
      Real.sin_pi_div_four]
  have hs2 : Real.sin ((2 : ℝ) * π * (3/4)) = -1 := by
    rw [show (2 : ℝ) * π * (3/4) = π + π/2 by ring, Real.sin_add]
    simp
  rw [hs1, hs2]
  apply mul_neg_of_neg_of_pos _ Real.pi_pos
  have hE : Real.exp (-(1 : ℝ) ^ 2 * π ^ 2 * (1/100) / 2)
      = Real.exp (3 * π ^ 2 / 200) *
          Real.exp (-(2 : ℝ) ^ 2 * π ^ 2 * (1/100) / 2) := by
    rw [← Real.exp_add]
    congr 1
    ring
  have h2 : Real.exp (3 * π ^ 2 / 200) ≤ 1.18 := by
    have ha : 3 * π ^ 2 / 200 ≤ 0.149 := by nlinarith [pi_sq_ub]
    calc Real.exp (3 * π ^ 2 / 200) ≤ Real.exp 0.149 := Real.exp_le_exp.mpr ha
      _ ≤ 1 / (1 - 0.149) := exp_upper (by norm_num)
      _ ≤ 1.18 := by norm_num
  have h3 : Real.sqrt 2 ≤ 1.5 := sqrt_le_of_sq (by norm_num) (by norm_num)
  have h5 : Real.sqrt 2 / 2 * Real.exp (3 * π ^ 2 / 200) ≤ 0.885 := by
    nlinarith [Real.sqrt_nonneg 2, Real.exp_pos (3 * π ^ 2 / 200)]
  rw [hE]
  nlinarith [Real.exp_pos (-(2 : ℝ) ^ 2 * π ^ 2 * (1/100) / 2)]

/-- The two slow-expansion definitions are literally the same formula. -/
theorem slow_defs_eq : wfpt.ftt01w_slow = analytical.ftt01w_slow := rfl

theorem log_pi_hundredth_lb : -(18 : ℝ) ≤ Real.log (π * 1 * (1/100)) := by
  have h1 : Real.exp (-(18 : ℝ)) ≤ π * 1 * (1/100) := by
    apply exp_neg_le (by positivity)
    have h2 : (915 : ℝ) ≤ Real.exp 18 := by
      calc (915 : ℝ) ≤ (1 + 18/4) ^ 4 := by norm_num
        _ ≤ Real.exp 18 := exp_quartic (by norm_num)
    nlinarith [Real.pi_gt_three]
  have h2 := Real.log_le_log (Real.exp_pos _) h1
  rwa [Real.log_exp] at h2

/-- The common `kl` branch value at rt = 1, err = 1/100 is at most 2. -/
theorem kl0_hundredth_le_two :
    Real.sqrt (-2 * Real.log (π * 1 * (1/100)) / (π ^ 2 * 1)) ≤ 2 := by
  apply sqrt_le_of_sq (by norm_num)
  rw [div_le_iff (by positivity)]
  nlinarith [log_pi_hundredth_lb, pi_sq_lb]

/-- The pytensor regime selector picks the slow branch at
rt = 1, err = 1/100. -/
theorem compute_k_slow_at_one : analytical.compute_k 1 (1/100) = 0 := by
  rw [analytical.compute_k]
  apply if_neg
  apply not_lt.mpr
  have hks : 2 ≤ analytical.compute_k_ks 1 (1/100) := by
    simp only [analytical.compute_k_ks]
    have ha1 : 2 * Real.sqrt (π * 1 * (1/100)) * (1/100) < 1 := by
      have h1 : Real.sqrt (π * 1 * (1/100)) ≤ 0.2 := by
        apply sqrt_le_of_sq (by norm_num)
        nlinarith [Real.pi_le_four]
      nlinarith [Real.sqrt_nonneg (π * 1 * (1/100))]
    rw [if_pos ha1]
    have h2 : (2 : ℝ) ≤ Real.sqrt 1 + 1 := by rw [Real.sqrt_one]; norm_num
    have h3 := le_max_right (2 + Real.sqrt (-2 * 1 * Real.log
      (2 * Real.sqrt (π * 1 * (1/100)) * (1/100)))) (Real.sqrt 1 + 1)
    linarith
  have hkl : analytical.compute_k_kl 1 (1/100) ≤ 2 := by
    simp only [analytical.compute_k_kl]
    have hb1 : π * 1 * (1/100) < 1 := by nlinarith [Real.pi_le_four]
    rw [if_pos hb1]
    have h1 : 1 / (π * Real.sqrt 1) ≤ 2 := by
      rw [Real.sqrt_one, mul_one]
      rw [div_le_iff Real.pi_pos]
      nlinarith [Real.pi_gt_three]
    have h2 := kl0_hundredth_le_two
    have h3 := max_le h1 h2
    linarith
  linarith

/-- The aesara regime selector also picks the slow branch at
rt = 1, err = 1/100. -/
theorem wfpt_decision_slow_at_one : ¬ wfpt.decision 1 (1/100) := by
  rw [wfpt.decision]
  apply not_lt.mpr
  have hks : 2 ≤ wfpt.ks 1 (1/100) := by
    simp only [wfpt.ks]
    by_cases hc : 2 * Real.sqrt (2 * π * 1) * (1/100) < 1
    · rw [if_pos hc]
      have h2 : (2 : ℝ) ≤ Real.sqrt 1 + 1 := by rw [Real.sqrt_one]; norm_num
      have h3 := le_max_right (2 + Real.sqrt (-2 * 1 * Real.log
        (2 * Real.sqrt (2 * π * 1) * (1/100)))) (Real.sqrt 1 + 1)
      linarith
    · rw [if_neg hc]
  have hkl : wfpt.kl 1 (1/100) ≤ 2 := by
    simp only [wfpt.kl]
    have hb1 : π * 1 * (1/100) < 1 := by nlinarith [Real.pi_le_four]
    rw [if_pos hb1]
    have h1 : 1 / (π * Real.sqrt 1) ≤ 2 := by
      rw [Real.sqrt_one, mul_one]
      rw [div_le_iff Real.pi_pos]
      nlinarith [Real.pi_gt_three]
    have h2 := kl0_hundredth_le_two
    have h3 := max_le h2 h1
    linarith
  linarith

/-- The pytensor evaluator outputs the (negative) truncated slow-series
value at rt = 1, a = 10, w = 3/4, err = 1/100, k_terms = 2. -/
theorem analytical_ftt01w_neg : analytical.ftt01w 1 10 (3/4) (1/100) 2 < 0 := by
  rw [analytical.ftt01w, compute_k_slow_at_one,
    show (1 : ℝ) / 10 ^ 2 = 1/100 by norm_num]
  have := ftt01w_slow_neg
  nlinarith [this]

/-- The aesara evaluator clamps the same negative slow-series value to
exactly 0 at rt = 1, a = 10, w = 3/4, err = 1/100, k_terms = 2. -/
theorem wfpt_ftt01w_zero : wfpt.ftt01w 1 10 (3/4) (1/100) 2 = 0 := by
  simp only [wfpt.ftt01w]
  rw [if_neg (show ¬ (wfpt.ks 1 (1/100) < wfpt.kl 1 (1/100)) from
      wfpt_decision_slow_at_one),
    show (1 : ℝ) / 10 ^ 2 = 1/100 by norm_num, slow_defs_eq]
  rw [if_neg (not_lt.mpr ftt01w_slow_neg.le), mul_zero]

/-! ## Concrete facts at rt = 2/25, err = 9/20, where the two historical
regime selectors disagree (used by C9).  Numerically ks = 2.437 (pytensor)
versus ks = 2.268 (aesara) while kl = 2.350 in both, so the pytensor
selector picks slow and the aesara selector picks fast. -/

theorem c9_X_pos : 0 < π * (2/25) * (9/20) := by positivity

theorem c9_X_lb : (0.113 : ℝ) ≤ π * (2/25) * (9/20) := by
  nlinarith [Real.pi_gt_3141592]

theorem c9_X_ub : π * (2/25) * (9/20) ≤ 0.1131 := by
  nlinarith [Real.pi_lt_3141593]

theorem c9_logX_lb : -(2.2739 : ℝ) ≤ Real.log (π * (2/25) * (9/20)) := by
  have he : (9.41 : ℝ) ≤ Real.exp 2.2739 := by
    have h1 : Real.exp 2.2739 = Real.exp 2 * Real.exp 0.2739 := by
      rw [← Real.exp_add]; norm_num
    have h2 : (1.2739 : ℝ) ≤ Real.exp 0.2739 := by
      have := Real.add_one_le_exp (0.2739 : ℝ); linarith
    nlinarith [exp_two_lb, Real.exp_pos (0.2739 : ℝ)]
  have hx : Real.exp (-(2.2739 : ℝ)) ≤ π * (2/25) * (9/20) := by
    apply exp_neg_le c9_X_pos
    nlinarith [c9_X_lb, he, Real.exp_pos (2.2739 : ℝ)]
  linarith [neg_log_le hx]

theorem c9_logX_ub : Real.log (π * (2/25) * (9/20)) ≤ -(2.1067 : ℝ) := by
  have he : Real.exp 2.1067 ≤ 8.2717 := by
    have h1 : Real.exp 2.1067 = Real.exp 2 * Real.exp 0.1067 := by
      rw [← Real.exp_add]; norm_num
    have h2 : Real.exp 0.1067 ≤ 1.11945 := by
      have h3 : Real.exp 0.1067 ≤ 1 / (1 - 0.1067) := exp_upper (by norm_num)
      have h4 : (1 : ℝ) / (1 - 0.1067) ≤ 1.11945 := by norm_num
      linarith
    nlinarith [exp_two_ub, exp_two_lb, Real.exp_pos (0.1067 : ℝ)]
  apply log_le_neg c9_X_pos
  apply le_exp_neg c9_X_pos
  nlinarith [c9_X_ub, he, Real.exp_pos (2.1067 : ℝ), c9_X_pos]

theorem c9_a_pos : 0 < 2 * Real.sqrt (π * (2/25) * (9/20)) * (9/20) := by
  have := Real.sqrt_pos.mpr c9_X_pos
  positivity

theorem c9_a_ub : 2 * Real.sqrt (π * (2/25) * (9/20)) * (9/20) ≤ 0.36 := by
  have hs : Real.sqrt (π * (2/25) * (9/20)) ≤ 0.34 :=
    sqrt_le_of_sq (by norm_num) (by nlinarith [c9_X_ub])
  nlinarith [Real.sqrt_nonneg (π * (2/25) * (9/20))]

theorem c9_log_a :
    Real.log (2 * Real.sqrt (π * (2/25) * (9/20)) * (9/20)) ≤ -1 := by
  apply log_le_neg c9_a_pos
  have h1 : (0.36 : ℝ) ≤ Real.exp (-1) :=
    le_exp_neg (by norm_num) (by nlinarith [Real.exp_one_lt_d9, Real.exp_pos 1])
  exact le_trans c9_a_ub h1

theorem c9_py_ks_lb : (2.4 : ℝ) ≤ analytical.compute_k_ks (2/25) (9/20) := by
  simp only [analytical.compute_k_ks]
  rw [if_pos (lt_of_le_of_lt c9_a_ub (by norm_num))]
  have h1 : (0.4 : ℝ) ≤ Real.sqrt (-2 * (2/25) *
      Real.log (2 * Real.sqrt (π * (2/25) * (9/20)) * (9/20))) := by
    apply le_sqrt_of_sq (by norm_num)
    nlinarith [c9_log_a]
  have h2 := le_max_left (2 + Real.sqrt (-2 * (2/25) *
      Real.log (2 * Real.sqrt (π * (2/25) * (9/20)) * (9/20))))
    (Real.sqrt (2/25) + 1)
  linarith

theorem c9_py_kl_ub : analytical.compute_k_kl (2/25) (9/20) ≤ 2.4 := by
  simp only [analytical.compute_k_kl]
  rw [if_pos (lt_of_le_of_lt c9_X_ub (by norm_num))]
  have h1 : 1 / (π * Real.sqrt (2/25)) ≤ 2.4 := by
    have hs : (0.28 : ℝ) ≤ Real.sqrt (2/25) :=
      le_sqrt_of_sq (by norm_num) (by norm_num)
    rw [div_le_iff (by positivity)]
    nlinarith [Real.pi_gt_three]
  have h2 : Real.sqrt (-2 * Real.log (π * (2/25) * (9/20)) /
      (π ^ 2 * (2/25))) ≤ 2.4 := by
    apply sqrt_le_of_sq (by norm_num)
    rw [div_le_iff (by positivity)]
    nlinarith [c9_logX_lb, pi_sq_lb]
  have h3 := max_le h1 h2
  linarith

theorem c9_compute_k_zero : analytical.compute_k (2/25) (9/20) = 0 := by
  rw [analytical.compute_k]
  exact if_neg (not_lt.mpr (le_trans c9_py_kl_ub c9_py_ks_lb))

theorem c9_arg_pos : 0 < 2 * Real.sqrt (2 * π * (2/25)) * (9/20) := by
  have : (0 : ℝ) < 2 * π * (2/25) := by positivity
  have := Real.sqrt_pos.mpr this
  positivity

theorem c9_arg_ub : 2 * Real.sqrt (2 * π * (2/25)) * (9/20) ≤ 0.639 := by
  have hs : Real.sqrt (2 * π * (2/25)) ≤ 0.71 :=
    sqrt_le_of_sq (by norm_num) (by nlinarith [Real.pi_lt_3141593])
  nlinarith [Real.sqrt_nonneg (2 * π * (2/25))]

theorem c9_arg_lb : (0.638 : ℝ) ≤ 2 * Real.sqrt (2 * π * (2/25)) * (9/20) := by
  have hs : (0.7089 : ℝ) ≤ Real.sqrt (2 * π * (2/25)) :=
    le_sqrt_of_sq (by norm_num) (by nlinarith [Real.pi_gt_3141592])
  nlinarith

theorem c9_log_arg_lb :
    -(0.525625 : ℝ) ≤ Real.log (2 * Real.sqrt (2 * π * (2/25)) * (9/20)) := by
  have he : (1.6386 : ℝ) ≤ Real.exp 0.525625 := by
    calc (1.6386 : ℝ) ≤ (1 + 0.525625 / 4) ^ 4 := by norm_num
      _ ≤ Real.exp 0.525625 := exp_quartic (by norm_num)
  have hx : Real.exp (-(0.525625 : ℝ))
      ≤ 2 * Real.sqrt (2 * π * (2/25)) * (9/20) := by
    apply exp_neg_le c9_arg_pos
    nlinarith [c9_arg_lb, he, Real.exp_pos (0.525625 : ℝ)]
  linarith [neg_log_le hx]

theorem c9_ae_ks_ub : wfpt.ks (2/25) (9/20) ≤ 2.29 := by
  simp only [wfpt.ks]
  rw [if_pos (lt_of_le_of_lt c9_arg_ub (by norm_num))]
  apply max_le
  · have h1 : Real.sqrt (-2 * (2/25) *
        Real.log (2 * Real.sqrt (2 * π * (2/25)) * (9/20))) ≤ 0.29 := by
      apply sqrt_le_of_sq (by norm_num)
      nlinarith [c9_log_arg_lb]
    linarith
  · have hs : Real.sqrt (2/25) ≤ 0.29 :=
      sqrt_le_of_sq (by norm_num) (by norm_num)
    linarith

theorem c9_ae_kl_lb : (2.31 : ℝ) ≤ wfpt.kl (2/25) (9/20) := by
  simp only [wfpt.kl]
  rw [if_pos (lt_of_le_of_lt c9_X_ub (by norm_num))]
  have h1 : (2.31 : ℝ) ≤ Real.sqrt (-2 * Real.log (π * (2/25) * (9/20)) /
      (π ^ 2 * (2/25))) := by
    apply le_sqrt_of_sq (by norm_num)
    rw [le_div_iff (by positivity)]
    nlinarith [c9_logX_ub, pi_sq_ub]
  have h2 := le_max_left (Real.sqrt (-2 * Real.log (π * (2/25) * (9/20)) /
      (π ^ 2 * (2/25)))) (1 / (π * Real.sqrt (2/25)))
  linarith

theorem c9_ae_decision : wfpt.decision (2/25) (9/20) := by
  rw [wfpt.decision]
  calc wfpt.ks (2/25) (9/20) ≤ 2.29 := c9_ae_ks_ub
    _ < 2.31 := by norm_num
    _ ≤ wfpt.kl (2/25) (9/20) := c9_ae_kl_lb

/-! ## Claim theorems -/

/-- Claim C1: for every data row whose decision time `rt - t` is at most
`epsilon`, and all finite parameters with `a > 0`, `0 < z < 1`, both
`logp_ddm` and `logp_ddm_sdv` return exactly the floor constant `LOGP_LB`
for that row, independent of `v`, `a`, `z`, `sv` (which are universally
quantified here). -/
theorem logp_ddm_degenerate_floor (data : List (ℝ × ℝ)) (v a z t sv err : ℝ)
    (K : ℕ) (epsilon : ℝ) (i : ℕ) (row : ℝ × ℝ)
    (hrow : data.get? i = some row) (hdeg : |row.1| - t ≤ epsilon)
    (ha : 0 < a) (hz0 : 0 < z) (hz1 : z < 1) :
    (analytical.logp_ddm data v a z t err K epsilon).value.get? i
        = some analytical.LOGP_LB
      ∧ (analytical.logp_ddm_sdv data v a z t sv err K epsilon).value.get? i
        = some analytical.LOGP_LB := by
  constructor
  · show (data.map _).get? i = _
    rw [List.get?_map, hrow]
    exact congrArg some (logp_ddm_row_degenerate v a z err K hdeg)
  · by_cases hsv : sv = 0
    · subst hsv
      rw [analytical.logp_ddm_sdv, if_pos rfl]
      show (data.map _).get? i = _
      rw [List.get?_map, hrow]
      exact congrArg some (logp_ddm_row_degenerate v a z err K hdeg)
    · rw [analytical.logp_ddm_sdv, if_neg hsv]
      show (data.map _).get? i = _
      rw [List.get?_map, hrow]
      exact congrArg some (logp_ddm_sdv_row_degenerate v a z sv err K hdeg)

/-- Witness for C1 at the concrete row (0.5, 1) with t = 1,
epsilon = 1/100: the decision time is -0.5 ≤ epsilon and both entry
points give LOGP_LB. -/
theorem logp_ddm_degenerate_floor_witness :
    ([((1/2 : ℝ), (1 : ℝ))].get? 0 = some ((1/2 : ℝ), (1 : ℝ))
        ∧ |((1/2 : ℝ), (1 : ℝ)).1| - 1 ≤ (1/100 : ℝ)
        ∧ (0 : ℝ) < 1 ∧ (0 : ℝ) < 1/2 ∧ (1/2 : ℝ) < 1)
      ∧ ((analytical.logp_ddm [((1/2 : ℝ), 1)] 0 1 (1/2) 1 (1/100) 2
            (1/100)).value.get? 0 = some analytical.LOGP_LB
        ∧ (analytical.logp_ddm_sdv [((1/2 : ℝ), 1)] 0 1 (1/2) 1 1 (1/100) 2
            (1/100)).value.get? 0 = some analytical.LOGP_LB) :=
  ⟨⟨rfl, by norm_num [abs_le], by norm_num, by norm_num, by norm_num⟩,
    logp_ddm_degenerate_floor [((1/2 : ℝ), 1)] 0 1 (1/2) 1 1 (1/100) 2 (1/100)
      0 ((1/2 : ℝ), 1) rfl (by norm_num [abs_le]) (by norm_num) (by norm_num)
      (by norm_num)⟩

/-- Claim C2: calling `logp_ddm_sdv` with `sv = 0` returns exactly the
result of `logp_ddm` on the same arguments (the `sv` variant delegates to
the `sv = 0` formula when `sv = 0` exactly); in particular the per-row
log-likelihood vectors coincide. -/
theorem logp_ddm_sdv_zero_delegates (data : List (ℝ × ℝ)) (v a z t err : ℝ)
    (K : ℕ) (epsilon : ℝ) :
    analytical.logp_ddm_sdv data v a z t 0 err K epsilon
      = analytical.logp_ddm data v a z t err K epsilon := by
  rw [analytical.logp_ddm_sdv, if_pos rfl]

/-- Claim C3: the forward node's backward rule `LANLogpOp.grad` returns
the unsupported-gradient signal for the raw data input (a signal distinct
from every actual gradient, hence never a silent zero), followed by the
outputs of the VJP node invoked on the same data, parameters and upstream
gradient; and `vjp_vmap_logp` returns one gradient per parameter input,
dropping the data cotangent (entry `i` of its output is entry `i + 1` of
the foreign VJP's cotangent list). -/
theorem lan_grad_spec {α : Type} (vjp_fn : α → List α → α → List α)
    (data : α) (dist_params : List α) (gz : α)
    (hlen : (vjp_fn data dist_params gz).length = dist_params.length + 1) :
    lan.LANLogpOp_grad vjp_fn data dist_params gz
        = lan.GradOut.notImplemented ::
            (lan.vjp_vmap_logp vjp_fn data dist_params gz).map lan.GradOut.grad
      ∧ (∀ x : α, lan.GradOut.notImplemented ≠ lan.GradOut.grad x)
      ∧ (lan.vjp_vmap_logp vjp_fn data dist_params gz).length
          = dist_params.length
      ∧ ∀ i : ℕ, (lan.vjp_vmap_logp vjp_fn data dist_params gz).get? i
          = (vjp_fn data dist_params gz).get? (i + 1) := by
  refine ⟨rfl, fun x h => lan.GradOut.noConfusion h, ?_, fun i => ?_⟩
  · rw [lan.vjp_vmap_logp, List.length_drop, hlen, Nat.add_sub_cancel]
  · rw [lan.vjp_vmap_logp, List.get?_drop, Nat.add_comm]

/-- Witness for C3 with the foreign VJP returning two cotangents for one
parameter input over concrete integer tensors. -/
theorem lan_grad_spec_witness :
    ((fun (d : ℤ) (_ : List ℤ) (g : ℤ) => [d + g, 7]) 1 [5] 2).length
        = [(5 : ℤ)].length + 1
      ∧ (lan.LANLogpOp_grad (fun (d : ℤ) (_ : List ℤ) (g : ℤ) => [d + g, 7]) 1
            [(5 : ℤ)] 2
          = lan.GradOut.notImplemented ::
              (lan.vjp_vmap_logp (fun (d : ℤ) (_ : List ℤ) (g : ℤ) => [d + g, 7])
                  1 [(5 : ℤ)] 2).map lan.GradOut.grad
        ∧ (∀ x : ℤ, lan.GradOut.notImplemented ≠ lan.GradOut.grad x)
        ∧ (lan.vjp_vmap_logp (fun (d : ℤ) (_ : List ℤ) (g : ℤ) => [d + g, 7]) 1
              [(5 : ℤ)] 2).length = [(5 : ℤ)].length
        ∧ ∀ i : ℕ,
            (lan.vjp_vmap_logp (fun (d : ℤ) (_ : List ℤ) (g : ℤ) => [d + g, 7])
                1 [(5 : ℤ)] 2).get? i
              = ((fun (d : ℤ) (_ : List ℤ) (g : ℤ) => [d + g, 7]) 1 [5] 2).get?
                  (i + 1)) :=
  ⟨rfl, lan_grad_spec (fun d _ g => [d + g, 7]) 1 [(5 : ℤ)] 2 rfl⟩

/-- Claim C4: flipping the sign of every row's signed response-time
encoding and of every row's response (i.e. flipping every choice, all
responses being nonzero under the sign convention), while mapping
`v ↦ -v` and `z ↦ 1 - z`, leaves the per-row log-likelihood vector of
`logp_ddm` unchanged. -/
theorem logp_ddm_choice_flip_invariance (data : List (ℝ × ℝ))
    (v a z t err : ℝ) (K : ℕ) (epsilon : ℝ)
    (hresp : ∀ r ∈ data, r.2 ≠ 0) :
    (analytical.logp_ddm (data.map flipRow) (-v) a (1 - z) t err K
        epsilon).value
      = (analytical.logp_ddm data v a z t err K epsilon).value := by
  show (data.map flipRow).map _ = data.map _
  rw [List.map_map]
  exact List.map_congr_left fun r hr =>
    logp_ddm_row_flip (hresp r hr) v a z t err K epsilon

/-- Witness for C4 at the single row (1, 1) with v = 1, a = 1, z = 1/2,
t = 0. -/
theorem logp_ddm_choice_flip_invariance_witness :
    (∀ r ∈ [((1 : ℝ), (1 : ℝ))], r.2 ≠ 0)
      ∧ (analytical.logp_ddm ([((1 : ℝ), (1 : ℝ))].map flipRow) (-1) 1
            (1 - 1/2) 0 (1/100) 2 (1/100)).value
        = (analytical.logp_ddm [((1 : ℝ), (1 : ℝ))] 1 1 (1/2) 0 (1/100) 2
            (1/100)).value :=
  ⟨by norm_num,
    logp_ddm_choice_flip_invariance [((1 : ℝ), (1 : ℝ))] 1 1 (1/2) 0 (1/100)
      2 (1/100) (by norm_num)⟩

/-- Claim C7 counterexample: with k_terms = 2 the index range read
literally from the claim, `⌈(k_terms-1)/2⌉` to `⌊(k_terms-1)/2⌋`, is the
empty range `[1, 0]`, so the claimed sum is 0, while the code's
`ftt01w_fast` (whose range is `-⌊(k_terms-1)/2⌋` to `⌈(k_terms-1)/2⌉`) is
strictly positive at tt = 1, w = 1/2. -/
theorem ftt01w_fast_claim_range_cex :
    analytical.ftt01w_fast 1 (1/2) 2 ≠ analytical.ftt01w_fast_claimRange 1 (1/2) 2 := by
  have hcast : (((2 : ℕ)) : ℚ) = (2 : ℚ) := by norm_num
  have hceil : ⌈((2 : ℚ) - 1) / 2⌉ = 1 := by
    rw [Int.ceil_eq_iff] <;> norm_num
  have hfloor : ⌊((2 : ℚ) - 1) / 2⌋ = 0 := by
    rw [Int.floor_eq_iff] <;> norm_num
  have hclaim : analytical.ftt01w_fast_claimRange 1 (1/2) 2 = 0 := by
    rw [analytical.ftt01w_fast_claimRange, hcast, hceil, hfloor,
      Finset.Icc_eq_empty (by norm_num), Finset.sum_empty, zero_div]
  have hrange : kRange 2 = {0, 1} := by
    rw [kRange, hcast, hceil, hfloor]
    decide
  have hpos : 0 < analytical.ftt01w_fast 1 (1/2) 2 := by
    rw [analytical.ftt01w_fast, hrange, Finset.sum_pair (by decide)]
    have h1 : (0 : ℝ) < 2 * π * 1 ^ 3 := by positivity
    apply div_pos
    · apply mul_pos (Real.exp_pos _)
      have e1 := Real.exp_pos (-(1/2 + 2 * ((0 : ℤ) : ℝ)) ^ 2 / (2 * 1)
        - fastMaxExp 1 (1/2) 2)
      have e2 := Real.exp_pos (-(1/2 + 2 * ((1 : ℤ) : ℝ)) ^ 2 / (2 * 1)
        - fastMaxExp 1 (1/2) 2)
      push_cast
      nlinarith
    · exact Real.sqrt_pos.mpr h1
  rw [hclaim]
  exact ne_of_gt hpos

/-- Claim C7 (amended): for tt > 0, w in (0, 1) and k_terms ≥ 1,
`ftt01w_fast` equals the unstabilised sum of Gaussian-kernel terms
`(w + 2k)·exp(-(w + 2k)²/(2·tt))` over integer k from `-⌊(k_terms-1)/2⌋`
to `⌈(k_terms-1)/2⌉` with outer normalisation `1/√(2π·tt³)`: the
log-sum-exp stabilisation (subtract the maximum exponent c, then
`p = exp(c)·Σ(term·exp(exponent - c))`) is exactly the unstabilised
sum. -/
theorem ftt01w_fast_lse_exact (tt w : ℝ) (K : ℕ) (htt : 0 < tt)
    (hw0 : 0 < w) (hw1 : w < 1) (hK : 1 ≤ K) :
    analytical.ftt01w_fast tt w K = analytical.ftt01w_fast_spec tt w K := by
  rw [analytical.ftt01w_fast, analytical.ftt01w_fast_spec]
  congr 1
  rw [Finset.mul_sum]
  refine Finset.sum_congr rfl fun k _ => ?_
  rw [show Real.exp (fastMaxExp tt w K) *
        ((w + 2 * (k : ℝ)) *
          Real.exp (-(w + 2 * (k : ℝ)) ^ 2 / (2 * tt) - fastMaxExp tt w K))
      = (w + 2 * (k : ℝ)) *
          (Real.exp (fastMaxExp tt w K) *
            Real.exp (-(w + 2 * (k : ℝ)) ^ 2 / (2 * tt) - fastMaxExp tt w K))
      by ring, ← Real.exp_add]
  ring_nf

/-- Witness for the amended C7 at tt = 1, w = 1/2, k_terms = 2. -/
theorem ftt01w_fast_lse_exact_witness :
    ((0 : ℝ) < 1 ∧ (0 : ℝ) < 1/2 ∧ (1/2 : ℝ) < 1 ∧ 1 ≤ 2)
      ∧ analytical.ftt01w_fast 1 (1/2) 2 = analytical.ftt01w_fast_spec 1 (1/2) 2 :=
  ⟨⟨by norm_num, by norm_num, by norm_num, by norm_num⟩,
    ftt01w_fast_lse_exact 1 (1/2) 2 (by norm_num) (by norm_num) (by norm_num)
      (by norm_num)⟩

/-- Claim C8 counterexample: at a = 0 the parameter-domain requirement
`a > 0` is violated, yet the result of `logp_ddm` passes all its attached
validity checks (the code checks `a >= 0`, not `a > 0`), so the violation
is not signalled. -/
theorem logp_ddm_check_gap_cex :
    ¬ ((0 : ℝ) < 0)
      ∧ (analytical.logp_ddm [((1 : ℝ), (1 : ℝ))] 1 0 (1/2) 0 (1/100) 2
          (1/100)).valid := by
  refine ⟨by norm_num, fun c hc => ?_⟩
  simp only [analytical.logp_ddm, check_parameters, Checked.valid,
    List.nil_append, List.append_assoc, List.cons_append, List.mem_cons,
    List.not_mem_nil, or_false, List.mem_append, List.mem_singleton] at hc
  rcases hc with rfl | rfl | rfl <;> norm_num

/-- Claim C8 (amended): the deferred checks attached by `logp_ddm` are
exactly `0 ≤ 2a`, `0 ≤ z`, `z ≤ 1` (the code checks the doubled boundary
for nonnegativity, not `a > 0`), and those attached by `logp_ddm_sdv`
with `sv ≠ 0` are additionally `0 < sv`; the result signals invalid
exactly when one of these fails, while the numeric per-row vector is
always computed alongside the checks, never replaced by them. -/
theorem logp_validity_checks (data : List (ℝ × ℝ)) (v a z t err : ℝ)
    (K : ℕ) (epsilon : ℝ) :
    ((analytical.logp_ddm data v a z t err K epsilon).valid
        ↔ (0 ≤ a * 2 ∧ 0 ≤ z ∧ z ≤ 1))
      ∧ (analytical.logp_ddm data v a z t err K epsilon).value
        = data.map (fun row => analytical.logp_ddm_row row v a z t err K epsilon)
      ∧ ∀ sv : ℝ, sv ≠ 0 →
          (((analytical.logp_ddm_sdv data v a z t sv err K epsilon).valid
              ↔ (0 ≤ a * 2 ∧ 0 ≤ z ∧ z ≤ 1 ∧ 0 < sv))
            ∧ (analytical.logp_ddm_sdv data v a z t sv err K epsilon).value
              = data.map
                  (fun row => analytical.logp_ddm_sdv_row row v a z t sv err K
                    epsilon)) := by
  refine ⟨?_, rfl, fun sv hsv => ⟨?_, ?_⟩⟩
  · constructor
    · intro h
      exact ⟨h _ (by simp [analytical.logp_ddm, check_parameters]),
        h _ (by simp [analytical.logp_ddm, check_parameters]),
        h _ (by simp [analytical.logp_ddm, check_parameters])⟩
    · rintro ⟨h1, h2, h3⟩ c hc
      simp only [analytical.logp_ddm, check_parameters, Checked.valid,
        List.nil_append, List.append_assoc, List.cons_append, List.mem_cons,
        List.not_mem_nil, or_false, List.mem_append,
        List.mem_singleton] at hc
      rcases hc with rfl | rfl | rfl <;> assumption
  · rw [analytical.logp_ddm_sdv, if_neg hsv]
    constructor
    · intro h
      exact ⟨h _ (by simp [check_parameters]), h _ (by simp [check_parameters]),
        h _ (by simp [check_parameters]), h _ (by simp [check_parameters])⟩
    · rintro ⟨h1, h2, h3, h4⟩ c hc
      simp only [check_parameters, Checked.valid, List.nil_append,
        List.append_assoc, List.cons_append, List.mem_cons,
        List.not_mem_nil, or_false, List.mem_append,
        List.mem_singleton] at hc
      rcases hc with rfl | rfl | rfl | rfl <;> assumption
  · rw [analytical.logp_ddm_sdv, if_neg hsv]
    rfl

/-- Witness for the amended C8 at concrete valid-parameter input with
sv = 1 ≠ 0. -/
theorem logp_validity_checks_witness :
    ((analytical.logp_ddm [((1 : ℝ), (1 : ℝ))] 1 1 (1/2) 0 (1/100) 2
          (1/100)).valid
        ↔ (0 ≤ (1 : ℝ) * 2 ∧ 0 ≤ (1/2 : ℝ) ∧ (1/2 : ℝ) ≤ 1))
      ∧ ((analytical.logp_ddm_sdv [((1 : ℝ), (1 : ℝ))] 1 1 (1/2) 0 1 (1/100) 2
            (1/100)).valid
          ↔ (0 ≤ (1 : ℝ) * 2 ∧ 0 ≤ (1/2 : ℝ) ∧ (1/2 : ℝ) ≤ 1 ∧ (0 : ℝ) < 1)) :=
  ⟨(logp_validity_checks [((1 : ℝ), (1 : ℝ))] 1 1 (1/2) 0 (1/100) 2 (1/100)).1,
    ((logp_validity_checks [((1 : ℝ), (1 : ℝ))] 1 1 (1/2) 0 (1/100) 2
        (1/100)).2.2 1 (by norm_num)).1⟩

/-- Claim C10: in both row functions the density value passed to the
logarithm is floored at `exp(LOGP_LB)` with `LOGP_LB = -66.1` before the
log is taken, so for a non-degenerate row the log-density term is bounded
below by `LOGP_LB` and the per-row log-likelihood equals the stated
well-defined real expression (in this real-valued embedding, never an
infinite value), whatever value the series evaluator `ftt01w` returns. -/
theorem logp_ddm_log_floor (row : ℝ × ℝ) (v a z t sv err : ℝ) (K : ℕ)
    (epsilon : ℝ) (hnd : epsilon < |row.1| - t) (ha : 0 < a) (hz0 : 0 < z)
    (hz1 : z < 1) :
    analytical.LOGP_LB = -66.1
      ∧ analytical.LOGP_LB
        ≤ Real.log (max (analytical.ftt01w (|row.1| - t) (a * 2)
              (analytical.z_flipped z row.2) err K)
            (Real.exp analytical.LOGP_LB))
      ∧ analytical.logp_ddm_row row v a z t err K epsilon
        = Real.log (max (analytical.ftt01w (|row.1| - t) (a * 2)
              (analytical.z_flipped z row.2) err K)
            (Real.exp analytical.LOGP_LB))
          - analytical.v_flipped v row.2 * (a * 2) * analytical.z_flipped z row.2
          - analytical.v_flipped v row.2 ^ 2 * (|row.1| - t) / 2
          - 2 * Real.log (a * 2)
      ∧ analytical.logp_ddm_sdv_row row v a z t sv err K epsilon
        = Real.log (max (analytical.ftt01w (|row.1| - t) (a * 2)
              (analytical.z_flipped z row.2) err K)
            (Real.exp analytical.LOGP_LB))
          + ((a * 2 * analytical.z_flipped z row.2 * sv) ^ 2
              - 2 * (a * 2) * analytical.v_flipped v row.2 *
                  analytical.z_flipped z row.2
              - analytical.v_flipped v row.2 ^ 2 * (|row.1| - t))
            / (2 * sv ^ 2 * (|row.1| - t) + 2)
          - 0.5 * Real.log (sv ^ 2 * (|row.1| - t) + 1)
          - 2 * Real.log (a * 2) := by
  refine ⟨rfl, floor_log_bound _, ?_, ?_⟩
  · rw [analytical.logp_ddm_row, negative_rt_ind_zero hnd,
      tt_guard_nondegenerate hnd]
    ring
  · rw [analytical.logp_ddm_sdv_row, negative_rt_ind_zero hnd,
      tt_guard_nondegenerate hnd]
    ring

/-- Witness for C10 at the row (2, 1) with v = 0, a = 1, z = 1/2, t = 0,
sv = 1, epsilon = 1/100. -/
theorem logp_ddm_log_floor_witness :
    ((1/100 : ℝ) < |((2 : ℝ), (1 : ℝ)).1| - 0 ∧ (0 : ℝ) < 1 ∧ (0 : ℝ) < 1/2
        ∧ (1/2 : ℝ) < 1)
      ∧ analytical.LOGP_LB
        ≤ Real.log (max (analytical.ftt01w (|((2 : ℝ), (1 : ℝ)).1| - 0)
              (1 * 2) (analytical.z_flipped (1/2) ((2 : ℝ), (1 : ℝ)).2)
              (1/100) 2)
            (Real.exp analytical.LOGP_LB)) :=
  ⟨⟨by norm_num, by norm_num, by norm_num, by norm_num⟩,
    (logp_ddm_log_floor ((2 : ℝ), (1 : ℝ)) 0 1 (1/2) 0 1 (1/100) 2 (1/100)
      (by norm_num) (by norm_num) (by norm_num) (by norm_num)).2.1⟩

/-- Claim C5 counterexample: at rt = 1, a = 10, w = 3/4, err = 1/100,
k_terms = 2 — all inside the claimed domain — neither density evaluator
returns a strictly positive value: the pytensor `ftt01w` returns the raw
negative truncated slow series, and the aesara `ftt01w` clamps it to
exactly 0. -/
theorem ftt01w_strict_positivity_cex :
    ((0 : ℝ) < 1 ∧ (0 : ℝ) < 10 ∧ (0 : ℝ) < 3/4 ∧ (3/4 : ℝ) < 1
        ∧ (0 : ℝ) < 1/100 ∧ 1 ≤ 2)
      ∧ ¬ (0 < analytical.ftt01w 1 10 (3/4) (1/100) 2)
      ∧ ¬ (0 < wfpt.ftt01w 1 10 (3/4) (1/100) 2) :=
  ⟨⟨by norm_num, by norm_num, by norm_num, by norm_num, by norm_num,
      by norm_num⟩,
    not_lt.mpr analytical_ftt01w_neg.le,
    not_lt.mpr (le_of_eq wfpt_ftt01w_zero)⟩

/-- Claim C5 (amended): the aesara density evaluator's output is
nonnegative in every output position — its final clamp `p * (p > 0)`
replaces nonpositive truncated-series values by 0, so the contract is
`≥ 0`, not `> 0`; the pytensor evaluator returns the raw blend, whose
negative values are floored only downstream in the assemblers. -/
theorem wfpt_ftt01w_nonneg (rt a w err : ℝ) (K : ℕ) :
    0 ≤ wfpt.ftt01w rt a w err K := by
  simp only [wfpt.ftt01w]
  by_cases h : 0 < (if wfpt.ks rt err < wfpt.kl rt err then
      wfpt.ftt01w_fast (rt / a ^ 2) w K else wfpt.ftt01w_slow (rt / a ^ 2) w K)
  · rw [if_pos h, mul_one]
    exact h.le
  · rw [if_neg h, mul_zero]

/-- Claim C6 counterexample: at rt = 1, a = 10, w = 3/4, err = 1/100,
k_terms = 2 the aesara evaluator's regime indicator selects the slow
expansion, yet its output is not the slow-expansion value: the final
clamp `p * (p > 0)` replaces the negative slow value by 0. -/
theorem wfpt_ftt01w_select_cex :
    ¬ wfpt.decision 1 (1/100)
      ∧ wfpt.ftt01w 1 10 (3/4) (1/100) 2 ≠ wfpt.ftt01w_slow (1/100) (3/4) 2 := by
  refine ⟨wfpt_decision_slow_at_one, ?_⟩
  rw [wfpt_ftt01w_zero, slow_defs_eq]
  exact (ne_of_lt ftt01w_slow_neg).symm

/-- Claim C6 (amended): the pytensor evaluator's blend
`indicator * fast + (1 - indicator) * slow` is an exact select — the
indicator `compute_k` takes only the values 1 and 0, and the output
equals exactly the fast value where it is 1 and exactly the slow value
where it is 0; in the aesara evaluator this holds only up to the final
nonnegativity clamp `p * (p > 0)`. -/
theorem ftt01w_blend_is_select (rt a w err : ℝ) (K : ℕ) :
    (analytical.compute_k rt err = 1 ∨ analytical.compute_k rt err = 0)
      ∧ (analytical.compute_k rt err = 1 →
          analytical.ftt01w rt a w err K
            = analytical.ftt01w_fast (rt / a ^ 2) w K)
      ∧ (analytical.compute_k rt err = 0 →
          analytical.ftt01w rt a w err K
            = analytical.ftt01w_slow (rt / a ^ 2) w K) := by
  refine ⟨?_, fun h => ?_, fun h => ?_⟩
  · rw [analytical.compute_k]
    by_cases hc : analytical.compute_k_ks rt err < analytical.compute_k_kl rt err
    · exact Or.inl (if_pos hc)
    · exact Or.inr (if_neg hc)
  · rw [analytical.ftt01w, h]
    ring
  · rw [analytical.ftt01w, h]
    ring

/-- Witness for the amended C6 at rt = 1, a = 10, w = 3/4, err = 1/100,
k_terms = 2, where the indicator is 0 and the output is the slow value. -/
theorem ftt01w_blend_is_select_witness :
    analytical.compute_k 1 (1/100) = 0
      ∧ analytical.ftt01w 1 10 (3/4) (1/100) 2
        = analytical.ftt01w_slow (1 / 10 ^ 2) (3/4) 2 :=
  ⟨compute_k_slow_at_one,
    (ftt01w_blend_is_select 1 10 (3/4) (1/100) 2).2.2 compute_k_slow_at_one⟩

/-- Claim C9: the two historical regime selectors differ in their
closed-form term-count formulas: at rt = 2/25, err = 9/20 the pytensor
`compute_k` indicator is 0 (slow expansion) while the aesara decision
closure selects the fast expansion — even though both implement
"prefer fast when ks < kl" with elementwise-conditional branches, their
`ks` formulas disagree (the pytensor threshold quantity is
`2·sqrt(pi·rt·err)·err`, the aesara one `2·sqrt(2·pi·rt)·err`). -/
theorem regime_selectors_diverge :
    ∃ rt err : ℝ, 0 < rt ∧ 0 < err
      ∧ analytical.compute_k rt err = 0 ∧ wfpt.decision rt err :=
  ⟨2/25, 9/20, by norm_num, by norm_num, c9_compute_k_zero, c9_ae_decision⟩

end HSSM

end
